import Mathlib

/-!
Shallow embedding of the vault synchronization and storage coordination
subsystem of the identity-veramo repository.

The embedding follows the source files:
  src/src/vault/services/file-vault-storage.ts   (FileVaultStorage)
  src/src/vault/services/vault-synchronizer.ts   (VaultSynchronizer)
  src/src/vault/services/vault-operator.ts       (VaultOperator, the iteration
                                                  wired by src/src/vault/index.ts)
  src/unnamed/part_011                           (a superseded VaultOperator
                                                  iteration whose use() awaits
                                                  seeding)
  src/test/integration/complete-workflow.test.ts (DynamicVaultFilesystem)

JavaScript objects used as keyed maps (the flat adapter files, the store
directory, the per-vault promise queues) are embedded as association lists
over String keys; assignment `m[k] = v` overwrites the first occurrence of
the key in place and otherwise appends, exactly as JS property assignment
preserves first-insertion order.  Serialized JSON files hold their parsed
values in the model (serialization round-trips are elided).  Asynchronous
writes that the source schedules without awaiting (the lockfile-guarded
record write inside FileVaultStorage.update) are modelled as a FIFO list of
pending writes, applied by an explicit flush step.
-/

-- Results of fallible operations are compared for equality in witnesses;
-- decidable equality lets them evaluate.
deriving instance DecidableEq for Except

namespace IdentityVeramo

/-- Association list keyed by strings: the embedding of a JS object used as a
map, in property insertion order. -/
abbrev Assoc (α : Type) := List (String × α)

/-- First-match lookup, the embedding of JS property read `m[k]`. -/
def lookupA {α : Type} (m : Assoc α) (k : String) : Option α :=
  match m with
  | [] => none
  | (k', v) :: rest => if k' == k then some v else lookupA rest k

/-- JS property assignment `m[k] = v`: overwrite in place if the key exists,
otherwise append at the end. -/
def setA {α : Type} (m : Assoc α) (k : String) (v : α) : Assoc α :=
  match m with
  | [] => [(k, v)]
  | (k', v') :: rest =>
      if k' == k then (k', v) :: rest else (k', v') :: setA rest k v

/-- JS `delete m[k]`. -/
def removeA {α : Type} (m : Assoc α) (k : String) : Assoc α :=
  match m with
  | [] => []
  | (k', v') :: rest =>
      if k' == k then rest else (k', v') :: removeA rest k

/-- Keys of a JS object, in insertion order (`Object.keys`). -/
def keysA {α : Type} (m : Assoc α) : List String := m.map (fun kv => kv.1)

/-- A toolkit-native record held in one of the four vault sections.  The
source treats these as opaque JSON values and only ever inspects the fields
used for keying (`did` of an IIdentifier, `kid` of an IKey, `alias` of a
ManagedPrivateKey, `id` of a credential); `payload` stands for the rest of
the record.  The source field name `alias` is a reserved word in Lean, so
it is embedded as `aliasName`. -/
structure Entry where
  did : String := ""
  kid : String := ""
  aliasName : Option String := none
  id : Option String := none
  payload : String := ""
deriving Repr, DecidableEq

/-- The parsed content of one flat adapter file: a JS object keyed by the
toolkit's natural key. -/
abbrev FlatMap := Assoc Entry

/-- Canonical vault record (one JSON document per vault id), per the
IdentityVault shape of @synet/vault-core as used by the source:
id, optional identity summary, four section arrays, creation timestamp. -/
structure IdentityVault where
  id : String
  identity : Option String := none
  didStore : List Entry := []
  keyStore : List Entry := []
  privateKeyStore : List Entry := []
  vcStore : List Entry := []
  createdAt : String := ""
deriving Repr, DecidableEq

/-- A record value carrying only some fields, as produced by spreading a JS
object literal that mentions only some keys (VaultSynchronizer builds
`\x7b id, [section]: dataArray \x7d`). `some x` means the key is present. -/
structure VaultPatch where
  id : Option String := none
  identity : Option (Option String) := none
  didStore : Option (List Entry) := none
  keyStore : Option (List Entry) := none
  privateKeyStore : Option (List Entry) := none
  vcStore : Option (List Entry) := none
  createdAt : Option String := none
deriving Repr, DecidableEq

/-- The spread-merge in FileVaultStorage.update:
`\x7b ...currentVault, ...vaultData, id: currentVault.id \x7d` — every key
present in the incoming data wins, except `id`, which is always the current
record's id. -/
def mergeVault (cur : IdentityVault) (p : VaultPatch) : IdentityVault :=
  { id := cur.id
    identity := p.identity.getD cur.identity
    didStore := p.didStore.getD cur.didStore
    keyStore := p.keyStore.getD cur.keyStore
    privateKeyStore := p.privateKeyStore.getD cur.privateKeyStore
    vcStore := p.vcStore.getD cur.vcStore
    createdAt := p.createdAt.getD cur.createdAt }

/-- The four vault sections kept in sync with the flat adapter files. -/
inductive Section where
  | didStore
  | keyStore
  | privateKeyStore
  | vcStore
deriving Repr, DecidableEq

/-- Read one section array of a record. -/
def getSection (v : IdentityVault) : Section → List Entry
  | Section.didStore => v.didStore
  | Section.keyStore => v.keyStore
  | Section.privateKeyStore => v.privateKeyStore
  | Section.vcStore => v.vcStore

/-- The targeted update object built by
VaultSynchronizer.processSectionUpdate: an object holding `id` and exactly
the one changed section. -/
def sectionPatch (s : Section) (vaultId : String) (arr : List Entry) : VaultPatch :=
  match s with
  | Section.didStore => { id := some vaultId, didStore := some arr }
  | Section.keyStore => { id := some vaultId, keyStore := some arr }
  | Section.privateKeyStore => { id := some vaultId, privateKeyStore := some arr }
  | Section.vcStore => { id := some vaultId, vcStore := some arr }

/-- The failure cases the source distinguishes (thrown Error messages and
Result.fail strings), per the spec taxonomy; `typeError` is the JS
TypeError thrown when a property of `undefined` is read. -/
inductive VaultErr where
  | notFound (vaultId : String)
  | alreadyExists (vaultId : String)
  | noActiveVault
  | invalidVaultId (raw : String)
  | enoent (p : String)
  | typeError
deriving Repr, DecidableEq

/-- Filesystem change operations carried by events. -/
inductive FileOp where
  | read
  | write
  | delete
deriving Repr, DecidableEq

/-- File change event payload emitted by the vault-scoped filesystem and
consumed by the synchronizer. -/
structure FileChangedEvent where
  filePath : String
  vaultId : String
  operation : FileOp
deriving Repr, DecidableEq

/-- One queued section-sync operation: the data captured by the closure
`() => this.processSectionUpdate(section, filePath, activeVaultId)` that
syncSection chains onto the per-vault promise queue. -/
structure Fold where
  sec : Section
  filePath : String
  vaultId : String
deriving Repr, DecidableEq

/-- State of FileVaultStorage: the canonical record files (keyed by vault
id; the file path is `storeDir/<id>.json`, bijective in the id), plus the
FIFO list of record writes that update() has scheduled inside
`lockfile.lock(...).then(...)` without awaiting them. -/
structure StorageState where
  files : Assoc IdentityVault := []
  pending : List (String × IdentityVault) := []
deriving Repr, DecidableEq

/-- The JS value the operator layer hands to `FileVaultStorage.create`.
The storage method declares an `IdentityVault` parameter, but the wired
`VaultOperator.createNew` actually passes
`JSON.stringify(vault.toJSON(), null, 2)` — a string.  The constructor
records the runtime type of the argument; `serialized` carries the record
whose serialization the string holds. -/
inductive StorageArg where
  | record (v : IdentityVault)
  | serialized (v : IdentityVault)
deriving Repr, DecidableEq

namespace FileVaultStorage

/-- `FileVaultStorage.toPersistence`: reads `entity.id.toString()` and maps
the section arrays.  On a genuine record this is total (the model keeps the
record itself for the persisted form, round-trips elided); on a JS string,
`entity.id` is `undefined` and `.toString()` throws a TypeError. -/
def toPersistence : StorageArg → Except VaultErr IdentityVault
  | StorageArg.record v => Except.ok v
  | StorageArg.serialized _ => Except.error VaultErr.typeError

/-- `FileVaultStorage.exists`: the vault file exists. -/
def existsVault (st : StorageState) (vaultId : String) : Bool :=
  (lookupA st.files vaultId).isSome

/-- `FileVaultStorage.get`: throws if the file is absent, else parses it. -/
def get (st : StorageState) (vaultId : String) : Except VaultErr IdentityVault :=
  match lookupA st.files vaultId with
  | none => Except.error (VaultErr.notFound vaultId)
  | some v => Except.ok v

/-- `FileVaultStorage.create`: runs `toPersistence` FIRST (line 52, before
the exists check — it throws on a serialized-string argument), then throws
AlreadyExists if the target file exists, otherwise writes the persisted
record (the write is awaited). -/
def create (st : StorageState) (vaultId : String) (arg : StorageArg) :
    Except VaultErr StorageState :=
  match toPersistence arg with
  | Except.error e => Except.error e
  | Except.ok rec =>
      if (lookupA st.files vaultId).isSome then
        Except.error (VaultErr.alreadyExists vaultId)
      else
        Except.ok { st with files := setA st.files vaultId rec }

/-- `FileVaultStorage.update`: throws NotFound if absent; otherwise reads
the current record, computes the spread-merge with `id` preserved, and then
schedules the locked file write via `lockfile.lock(filePath,...).then(...)`
WITHOUT awaiting it — update() resolves once the write is scheduled, so the
merged record lands on the pending list, not in `files`. -/
def update (st : StorageState) (vaultId : String) (p : VaultPatch) :
    Except VaultErr StorageState :=
  if (lookupA st.files vaultId).isNone then
    Except.error (VaultErr.notFound vaultId)
  else
    match get st vaultId with
    | Except.error e => Except.error e
    | Except.ok cur =>
        Except.ok { st with pending := st.pending ++ [(vaultId, mergeVault cur p)] }

/-- Completion of the scheduled locked writes, in the order update() calls
scheduled them (the order lockfile grants the lock in the uncontended
case). -/
def flush (st : StorageState) : StorageState :=
  { files := st.pending.foldl (fun fs p => setA fs p.1 p.2) st.files
    pending := [] }

/-- `FileVaultStorage.delete`: throws NotFound if absent, else removes. -/
def deleteVault (st : StorageState) (vaultId : String) :
    Except VaultErr StorageState :=
  if (lookupA st.files vaultId).isNone then
    Except.error (VaultErr.notFound vaultId)
  else
    Except.ok { st with files := removeA st.files vaultId }

end FileVaultStorage

/-- The base directory under which each vault has its flat-file directory.
src/src/vault/index.ts wires one storeDir for both FileVaultStorage and the
VaultSynchronizer; a fixed name suffices for the model. -/
def baseDir : String := "vaults"

/-- `path.join a b` for the two-component joins the source performs. -/
def pathJoin (a b : String) : String := a ++ "/" ++ b

/-- `path.basename`: the characters after the last separator.  (Implemented
over the character list so that it evaluates inside the kernel.) -/
def basename (p : String) : String :=
  String.mk ((p.data.reverse.takeWhile (fun c => c != '/')).reverse)

/-- The fixed flat adapter file names (`knownFiles` in VaultSynchronizer). -/
def didStoreFile : String := "didstore.json"

def keyStoreFile : String := "keystore.json"

def privateKeyStoreFile : String := "private-keystore.json"

def vcStoreFile : String := "vcstore.json"

/-- Exact basename match of a changed file against `knownFiles`
(VaultSynchronizer.handleFileChange lines 82-90). -/
def sectionOfFilename (name : String) : Option Section :=
  if name == didStoreFile then some Section.didStore
  else if name == keyStoreFile then some Section.keyStore
  else if name == privateKeyStoreFile then some Section.privateKeyStore
  else if name == vcStoreFile then some Section.vcStore
  else none

/-- Modelled from the spec: `VaultId.create` (the value object imported from
src/src/vault/domain/value-objects/vault-id, a file absent from the source
tree).  The spec fixes the validation: 2-32 characters, alphanumeric plus
`-` and `_`. -/
def validVaultId (s : String) : Bool :=
  decide (2 ≤ s.length) && decide (s.length ≤ 32) &&
    s.toList.all (fun c => c.isAlphanum || c == '-' || c == '_')

/-- Combined state of the synchronizer, the storage it drives, and the flat
adapter files: `activeVaultId` is the synchronizer's slot, `flatFiles` maps
a full path to the parsed content of the flat file stored there, and
`queues` is `updateQueues`, the per-vault-id promise chain embedded as a
FIFO list of captured fold operations. -/
structure SyncState where
  activeVaultId : Option String := none
  storage : StorageState := {}
  flatFiles : Assoc FlatMap := []
  queues : Assoc (List Fold) := []
deriving Repr, DecidableEq

namespace VaultSynchronizer

/-- `getVaultDir`. -/
def getVaultDir (vaultId : String) : String := pathJoin baseDir vaultId

/-- `syncSection`: resolve the synchronizer's CURRENT active vault id — not
the id carried by the event — and chain a fold for (section, filePath,
activeVaultId) after whatever is already queued for that id; with no active
vault the event is dropped. -/
def syncSection (st : SyncState) (sec : Section) (filePath : String) : SyncState :=
  match st.activeVaultId with
  | none => st
  | some v =>
      { st with
        queues := setA st.queues v
          (((lookupA st.queues v).getD []) ++ [⟨sec, filePath, v⟩]) }

/-- `handleFileChange`: only `write` operations are processed; the event's
vault id is validated with VaultId.create and dropped if invalid; the
basename is matched against the four known flat filenames and unknown names
are ignored; a match hands the section and path to syncSection. -/
def handleFileChange (st : SyncState) (ev : FileChangedEvent) : SyncState :=
  if ev.operation != FileOp.write then st
  else if !(validVaultId ev.vaultId) then st
  else
    match sectionOfFilename (basename ev.filePath) with
    | none => st
    | some sec => syncSection st sec ev.filePath

/-- `processSectionUpdate`: load the canonical record (throws if the vault
is gone), read and parse the flat file (a missing file rejects the read),
take `Object.values` of the parsed map, re-validate the vault id, and hand
storage an update holding `id` and exactly the one changed section. -/
def processSectionUpdate (st : SyncState) (sec : Section) (filePath : String)
    (vaultId : String) : Except VaultErr SyncState :=
  match FileVaultStorage.get st.storage vaultId with
  | Except.error e => Except.error e
  | Except.ok _vault =>
      match lookupA st.flatFiles filePath with
      | none => Except.error (VaultErr.enoent filePath)
      | some content =>
          let dataArray := content.map (fun kv => kv.2)
          if validVaultId vaultId then
            match FileVaultStorage.update st.storage vaultId
                (sectionPatch sec vaultId dataArray) with
            | Except.error e => Except.error e
            | Except.ok s => Except.ok { st with storage := s }
          else Except.error (VaultErr.invalidVaultId vaultId)

/-- One link of the per-vault promise chain: the fold runs, and a rejection
is caught by the `.catch` attached when the link was enqueued (logged and
swallowed), leaving the state unchanged so later links still run. -/
def runFold (st : SyncState) (f : Fold) : SyncState :=
  match processSectionUpdate st f.sec f.filePath f.vaultId with
  | Except.ok st' => st'
  | Except.error _ => st

/-- Run a list of queued folds in FIFO order. -/
def runFolds (st : SyncState) (fs : List Fold) : SyncState :=
  fs.foldl runFold st

/-- Drain the promise chain for one vault id: the queued folds execute
strictly one at a time, in the order they were enqueued. -/
def runQueue (st : SyncState) (v : String) : SyncState :=
  let fs := (lookupA st.queues v).getD []
  runFolds { st with queues := setA st.queues v [] } fs

/-- JS truthiness of the optional string fields the seeding loops guard on
(`if (keyWithAlias?.alias)`, `if (vc.id)`): present and non-empty. -/
def truthy : Option String → Bool
  | none => false
  | some s => s != ""

/-- The key under which a credential is seeded:
`vc.id.split(':').pop() || vc.id` — the piece after the last colon, falling
back to the whole id when that piece is empty.  (Implemented over the
character list so that it evaluates inside the kernel.) -/
def vcKey (vcId : String) : String :=
  let last := String.mk ((vcId.data.reverse.takeWhile (fun c => c != ':')).reverse)
  if last == "" then vcId else last

/-- `for (const did of vault.didStore) adapterData.dids[did.did] = did`. -/
def buildDidMap (l : List Entry) : FlatMap :=
  l.foldl (fun m e => setA m e.did e) []

/-- `for (const key of vault.keyStore) adapterData.keys[key.kid] = key`. -/
def buildKeyMap (l : List Entry) : FlatMap :=
  l.foldl (fun m e => setA m e.kid e) []

/-- Private keys are keyed by alias, and an entry without a truthy alias is
skipped. -/
def buildPrivateKeyMap (l : List Entry) : FlatMap :=
  l.foldl (fun m e =>
    if truthy e.aliasName then setA m (e.aliasName.getD "") e else m) []

/-- Credentials are keyed by the id suffix, and an entry without a truthy id
is skipped. -/
def buildVcMap (l : List Entry) : FlatMap :=
  l.foldl (fun m e =>
    if truthy e.id then setA m (vcKey (e.id.getD "")) e else m) []

/-- `seedFilesFromVault`: fail if the vault is absent from storage; if the
vault directory already holds the DID-store flat file, only set the active
vault id and succeed; otherwise load the record and write all four flat
files — each non-empty section as the keyed map built above, each empty
section as the empty object — then set the active vault id. -/
def seedFilesFromVault (st : SyncState) (vaultId : String) :
    SyncState × Except VaultErr Unit :=
  if !(FileVaultStorage.existsVault st.storage vaultId) then
    (st, Except.error (VaultErr.notFound vaultId))
  else
    let vaultDir := getVaultDir vaultId
    let didStorePath := pathJoin vaultDir didStoreFile
    if (lookupA st.flatFiles didStorePath).isSome then
      ({ st with activeVaultId := some vaultId }, Except.ok ())
    else
      match FileVaultStorage.get st.storage vaultId with
      | Except.error e => (st, Except.error e)
      | Except.ok vault =>
          let keyStorePath := pathJoin vaultDir keyStoreFile
          let privateKeyStorePath := pathJoin vaultDir privateKeyStoreFile
          let vcStorePath := pathJoin vaultDir vcStoreFile
          let didMap :=
            if vault.didStore.length > 0 then buildDidMap vault.didStore else []
          let keyMap :=
            if vault.keyStore.length > 0 then buildKeyMap vault.keyStore else []
          let pkMap :=
            if vault.privateKeyStore.length > 0 then
              buildPrivateKeyMap vault.privateKeyStore
            else []
          let vcMap :=
            if vault.vcStore.length > 0 then buildVcMap vault.vcStore else []
          let files :=
            setA (setA (setA (setA st.flatFiles didStorePath didMap)
              keyStorePath keyMap) privateKeyStorePath pkMap) vcStorePath vcMap
          ({ st with flatFiles := files, activeVaultId := some vaultId },
            Except.ok ())

/-- `setActiveVault`. -/
def setActiveVault (st : SyncState) (vaultId : Option String) : SyncState :=
  { st with activeVaultId := vaultId }

end VaultSynchronizer

/-- Modelled from the spec: `IdentityVault.createNew(\x7b id \x7d)` from
@synet/vault-core (outside this repository): validates the id and returns
an empty canonical record, all sections empty, `createdAt` set at creation
time. -/
def identityVaultCreateNew (id now : String) : Except VaultErr IdentityVault :=
  if validVaultId id then
    Except.ok { id := id, identity := none, didStore := [], keyStore := [],
                privateKeyStore := [], vcStore := [], createdAt := now }
  else Except.error (VaultErr.invalidVaultId id)

namespace VaultOperator

/-- `VaultOperator.use` as wired by src/src/vault/index.ts
(src/src/vault/services/vault-operator.ts lines 41-67): checks the vault
exists, sets the active vault on the event service and the synchronizer,
and returns success.  The `seedFilesFromVault` call and its failure check
are commented out in this iteration of the file. -/
def use (st : SyncState) (vaultId : String) :
    SyncState × Except VaultErr Unit :=
  if !(FileVaultStorage.existsVault st.storage vaultId) then
    (st, Except.error (VaultErr.notFound vaultId))
  else
    ({ st with activeVaultId := some vaultId }, Except.ok ())

/-- `VaultOperator.use` from the superseded iteration src/unnamed/part_011
lines 26-52: the same, except that it awaits `seedFilesFromVault` and
returns failure when seeding fails. -/
def usePart011 (st : SyncState) (vaultId : String) :
    SyncState × Except VaultErr Unit :=
  if !(FileVaultStorage.existsVault st.storage vaultId) then
    (st, Except.error (VaultErr.notFound vaultId))
  else
    let st1 := { st with activeVaultId := some vaultId }
    match VaultSynchronizer.seedFilesFromVault st1 vaultId with
    | (st2, Except.error e) => (st2, Except.error e)
    | (st2, Except.ok ()) => (st2, Except.ok ())

/-- `VaultOperator.createNew` as wired by src/src/vault/index.ts
(vault-operator.ts lines 72-97): build the new empty record (validating the
id), serialize it with `JSON.stringify(vault.toJSON(), null, 2)`, and hand
THAT STRING to storage create, whose toPersistence throws a TypeError on
it; the throw is caught and turned into a failure Result. -/
def createNew (st : SyncState) (id now : String) :
    SyncState × Except VaultErr Unit :=
  match identityVaultCreateNew id now with
  | Except.error e => (st, Except.error e)
  | Except.ok vault =>
      match FileVaultStorage.create st.storage id
          (StorageArg.serialized vault) with
      | Except.error e => (st, Except.error e)
      | Except.ok s => ({ st with storage := s }, Except.ok ())

/-- `VaultOperator.createNew` from the superseded iteration
src/unnamed/part_011 lines 57-91: validates the id, pre-checks existence
(failing with AlreadyExists), builds an empty `IdentityVault` object, and
hands the RECORD to storage create. -/
def createNewPart011 (st : SyncState) (id now : String) :
    SyncState × Except VaultErr Unit :=
  if !(validVaultId id) then (st, Except.error (VaultErr.invalidVaultId id))
  else if FileVaultStorage.existsVault st.storage id then
    (st, Except.error (VaultErr.alreadyExists id))
  else
    match FileVaultStorage.create st.storage id (StorageArg.record
        { id := id, identity := none, didStore := [], keyStore := [],
          privateKeyStore := [], vcStore := [], createdAt := now }) with
    | Except.error e => (st, Except.error e)
    | Except.ok s => ({ st with storage := s }, Except.ok ())

end VaultOperator

/-- State of the vault-scoped filesystem router (DynamicVaultFilesystem in
src/test/integration/complete-workflow.test.ts): the active-vault slot of
vaultEventService, the underlying files (path to raw contents), the set of
ensured directories, and the change events emitted so far. -/
structure RouterState where
  active : Option String := none
  files : Assoc String := []
  dirs : List String := []
  events : List FileChangedEvent := []
deriving Repr, DecidableEq

namespace DynamicVaultFilesystem

/-- `getVaultDir(filename)`: resolve `<baseDir>/<activeVaultId>/<filename>`,
throwing when no vault is active. -/
def getVaultDir (st : RouterState) (filename : String) :
    Except VaultErr String :=
  match st.active with
  | none => Except.error VaultErr.noActiveVault
  | some v => Except.ok (pathJoin (pathJoin baseDir v) filename)

/-- `existsSync`. -/
def existsSync (st : RouterState) (filename : String) :
    Except VaultErr Bool :=
  match getVaultDir st filename with
  | Except.error e => Except.error e
  | Except.ok p => Except.ok (lookupA st.files p).isSome

/-- `readFileSync`: resolve, read, then emit a `read` event. -/
def readFileSync (st : RouterState) (filename : String) :
    Except VaultErr (String × RouterState) :=
  match getVaultDir st filename with
  | Except.error e => Except.error e
  | Except.ok p =>
      match lookupA st.files p with
      | none => Except.error (VaultErr.enoent p)
      | some content =>
          match st.active with
          | none => Except.error VaultErr.noActiveVault
          | some v =>
              Except.ok (content,
                { st with events := st.events ++ [⟨p, v, FileOp.read⟩] })

/-- `writeFileSync`: throw with no active vault; otherwise ensure the vault
subdirectory exists, write the file at the resolved path, and emit exactly
one `write` event carrying the active vault id and that path. -/
def writeFileSync (st : RouterState) (filename data : String) :
    Except VaultErr RouterState :=
  match st.active with
  | none => Except.error VaultErr.noActiveVault
  | some v =>
      let vaultDir := pathJoin baseDir v
      let fullPath := pathJoin vaultDir filename
      Except.ok
        { st with
          dirs := if st.dirs.contains vaultDir then st.dirs
                  else st.dirs ++ [vaultDir]
          files := setA st.files fullPath data
          events := st.events ++ [⟨fullPath, v, FileOp.write⟩] }

/-- `deleteFileSync`: resolve, delete, emit a `delete` event. -/
def deleteFileSync (st : RouterState) (filename : String) :
    Except VaultErr RouterState :=
  match getVaultDir st filename with
  | Except.error e => Except.error e
  | Except.ok p =>
      let st1 := { st with files := removeA st.files p }
      match st1.active with
      | none => Except.error VaultErr.noActiveVault
      | some v =>
          Except.ok { st1 with events := st1.events ++ [⟨p, v, FileOp.delete⟩] }

/-- `ensureDirSync`: the empty path names the vault directory itself. -/
def ensureDirSync (st : RouterState) (dirPath : String) :
    Except VaultErr RouterState :=
  match st.active with
  | none => Except.error VaultErr.noActiveVault
  | some v =>
      let dir :=
        if dirPath == "" then pathJoin baseDir v
        else pathJoin (pathJoin baseDir v) dirPath
      Except.ok
        { st with dirs := if st.dirs.contains dir then st.dirs
                          else st.dirs ++ [dir] }

/-- `deleteDirSync`: remove the resolved directory and the files under it. -/
def deleteDirSync (st : RouterState) (dirPath : String) :
    Except VaultErr RouterState :=
  match st.active with
  | none => Except.error VaultErr.noActiveVault
  | some v =>
      let dir :=
        if dirPath == "" then pathJoin baseDir v
        else pathJoin (pathJoin baseDir v) dirPath
      Except.ok
        { st with
          dirs := st.dirs.filter (fun d => d != dir)
          files := st.files.filter (fun kv => !(kv.1.startsWith (dir ++ "/"))) }

/-- `readDirSync`: list the file names inside the resolved directory. -/
def readDirSync (st : RouterState) (dirPath : String) :
    Except VaultErr (List String) :=
  match st.active with
  | none => Except.error VaultErr.noActiveVault
  | some v =>
      let dir :=
        if dirPath == "" then pathJoin baseDir v
        else pathJoin (pathJoin baseDir v) dirPath
      Except.ok
        (((st.files.map (fun kv => kv.1)).filter
          (fun p => p.startsWith (dir ++ "/"))).map basename)

end DynamicVaultFilesystem

/-! Concrete inputs used by counterexamples and witnesses. -/

/-- An empty canonical record for vault id `alice`. -/
def vaultAlice : IdentityVault := { id := "alice", createdAt := "t0" }

/-- A record for `alice` holding one DID entry. -/
def vaultAliceDid : IdentityVault :=
  { id := "alice", didStore := [{ did := "did:key:z6Mk", payload := "doc0" }],
    createdAt := "t0" }

/-- A record for `alice` whose private-key section holds one entry that has
no `alias` field. -/
def vaultAliceNoAliasKey : IdentityVault :=
  { id := "alice", privateKeyStore := [{ payload := "pk1" }], createdAt := "t0" }

/-- Synchronizer state with only `alice` in storage, no flat files, no
active vault. -/
def stAlice : SyncState := { storage := { files := [("alice", vaultAlice)] } }

/-- Same, with the record holding one DID entry. -/
def stAliceDid : SyncState :=
  { storage := { files := [("alice", vaultAliceDid)] } }

/-- Same, with the alias-less private key record. -/
def stAliceNoAliasKey : SyncState :=
  { storage := { files := [("alice", vaultAliceNoAliasKey)] } }

/-- An update carrying a different id and a new DID section, as a fold or a
direct updateVault call produces. -/
def patchDid : VaultPatch :=
  { id := some "mallory", didStore := some [{ did := "did:key:new", payload := "doc1" }] }

/-- The storage state holding only `alice` with one DID entry. -/
def sstAliceDid : StorageState := { files := [("alice", vaultAliceDid)] }

/-- Parsed content of a DID-store flat file holding one entry. -/
def flatDidNew : FlatMap :=
  [("did:key:new", { did := "did:key:new", payload := "doc1" })]

/-- State where `alice` exists and her DID-store flat file has been written
with `flatDidNew`. -/
def stAliceFlat : SyncState :=
  { storage := { files := [("alice", vaultAliceDid)] }
    flatFiles := [("vaults/alice/didstore.json", flatDidNew)] }

/-- An empty canonical record for vault id `bob`. -/
def vaultBob : IdentityVault := { id := "bob", createdAt := "t0" }

/-- State where `alice`'s DID-store flat file has just been written but the
active vault has already changed to `bob`. -/
def stCross : SyncState :=
  { activeVaultId := some "bob"
    storage := { files := [("alice", vaultAliceDid), ("bob", vaultBob)] }
    flatFiles := [("vaults/alice/didstore.json", flatDidNew)] }

/-- A record for `carol` with one entry in every section, each carrying its
natural key. -/
def vaultFull : IdentityVault :=
  { id := "carol"
    didStore := [{ did := "did:key:abc", payload := "d" }]
    keyStore := [{ kid := "k1", payload := "k" }]
    privateKeyStore := [{ aliasName := some "a1", payload := "p" }]
    vcStore := [{ id := some "urn:uuid:42", payload := "c" }]
    createdAt := "t0" }

/-- State with only `carol` in storage and nothing seeded. -/
def stFull : SyncState := { storage := { files := [("carol", vaultFull)] } }

/-- A toolkit write of flat-file content `m` at path `p` (the router's
write step as seen by the synchronizer: the file content changes, then the
write event is emitted separately). -/
def writeFlat (st : SyncState) (p : String) (m : FlatMap) : SyncState :=
  { st with flatFiles := setA st.flatFiles p m }

/-- The two-sequential-writes scenario: write content `m1` to `p`, handle
its event and drain the queue, then write `m2` to the same path, handle its
event and drain the queue again.  The event's vault id is the active vault
`v`, as the router emits it. -/
def twoWriteRun (st : SyncState) (v p : String) (m1 m2 : FlatMap) : SyncState :=
  let st1 := writeFlat st p m1
  let st2 := VaultSynchronizer.handleFileChange st1 ⟨p, v, FileOp.write⟩
  let st3 := VaultSynchronizer.runQueue st2 v
  let st4 := writeFlat st3 p m2
  let st5 := VaultSynchronizer.handleFileChange st4 ⟨p, v, FileOp.write⟩
  VaultSynchronizer.runQueue st5 v

/-! Helper lemmas about the association-list embedding of JS objects and
about path strings. -/

theorem lookupA_setA_self {α : Type} (m : Assoc α) (k : String) (v : α) :
    lookupA (setA m k v) k = some v := by
  induction m with
  | nil => simp [setA, lookupA]
  | cons hd tl ih =>
      obtain ⟨k', v'⟩ := hd
      by_cases h : k' = k
      · subst h; simp [setA, lookupA]
      · simp [setA, lookupA, h, ih]

theorem lookupA_setA_ne {α : Type} (m : Assoc α) {k k' : String} (v : α)
    (h : k' ≠ k) : lookupA (setA m k' v) k = lookupA m k := by
  induction m with
  | nil => simp [setA, lookupA, h]
  | cons hd tl ih =>
      obtain ⟨k'', v''⟩ := hd
      by_cases h2 : k'' = k'
      · subst h2; simp [setA, lookupA, h]
      · simp [setA, lookupA, h2, ih]

theorem string_append_right_cancel {a b c : String} (h : a ++ b = a ++ c) :
    b = c := by
  have hd : (a ++ b).data = (a ++ c).data := congrArg String.data h
  simp only [String.data_append] at hd
  exact String.ext (List.append_cancel_left hd)

theorem pathJoin_right_ne (a : String) {b c : String} (h : b ≠ c) :
    pathJoin a b ≠ pathJoin a c := by
  intro hc
  exact h (string_append_right_cancel hc)

theorem keysA_setA_of_not_mem {α : Type} (m : Assoc α) {k : String} (v : α)
    (h : k ∉ keysA m) : keysA (setA m k v) = keysA m ++ [k] := by
  induction m with
  | nil => simp [setA, keysA]
  | cons hd tl ih =>
      obtain ⟨k', v'⟩ := hd
      simp only [keysA, List.map_cons, List.mem_cons] at h
      push_neg at h
      have hne : (k' == k) = false := beq_eq_false_iff_ne.mpr (Ne.symm h.1)
      have ih' : keysA (setA tl k v) = keysA tl ++ [k] :=
        ih (by simpa [keysA] using h.2)
      simp [setA, keysA, hne] at ih' ⊢
      exact ih'

theorem length_setA_of_not_mem {α : Type} (m : Assoc α) {k : String} (v : α)
    (h : k ∉ keysA m) : (setA m k v).length = m.length + 1 := by
  have h1 : (setA m k v).length = (keysA (setA m k v)).length := by
    simp [keysA]
  have h2 : m.length = (keysA m).length := by simp [keysA]
  rw [h1, keysA_setA_of_not_mem m v h, List.length_append, ← h2]
  simp

/-- Length of a map built by a guarded keyed-insertion loop over an entry
list, starting from an accumulator whose keys together with the produced
keys are distinct: every produced key inserts a fresh binding. -/
theorem length_foldl_setA_by {key : Entry → Option String}
    {step : FlatMap → Entry → FlatMap}
    (hstep : ∀ m e, step m e =
      match key e with
      | some s => setA m s e
      | none => m)
    (l : List Entry) (acc : FlatMap)
    (h : (keysA acc ++ l.filterMap key).Nodup) :
    (l.foldl step acc).length = acc.length + (l.filterMap key).length := by
  induction l generalizing acc with
  | nil => simp
  | cons e l ih =>
      rw [List.foldl_cons, hstep acc e]
      cases hke : key e with
      | none =>
          simp only [hke]
          have h' : (keysA acc ++ l.filterMap key).Nodup := by
            simpa [List.filterMap_cons, hke] using h
          simpa [List.filterMap_cons, hke] using ih acc h'
      | some s =>
          simp only [hke]
          have hrw : (keysA acc ++ (s :: l.filterMap key)).Nodup := by
            rw [List.filterMap_cons, hke] at h
            exact h
          rcases List.nodup_append.mp hrw with ⟨h1, h2, h3⟩
          have hs_not : s ∉ keysA acc := fun hs => h3 hs (by simp)
          have hkeys : keysA (setA acc s e) = keysA acc ++ [s] :=
            keysA_setA_of_not_mem acc e hs_not
          have hlen : (setA acc s e).length = acc.length + 1 :=
            length_setA_of_not_mem acc e hs_not
          have h' : (keysA (setA acc s e) ++ l.filterMap key).Nodup := by
            rw [hkeys, List.append_assoc]
            simpa using hrw
          rw [ih (setA acc s e) h', hlen, List.filterMap_cons, hke]
          simp only [List.length_cons]
          omega

/-- `filterMap` of an unconditionally-`some` key function is `map`. -/
theorem filterMap_always_some (f : Entry → String) (l : List Entry) :
    l.filterMap (fun e => some (f e)) = l.map f := by
  induction l with
  | nil => simp
  | cons a t ih => simp [List.filterMap_cons, ih]

/-- `filterMap` of a guarded key function is `map` when every entry passes
the guard. -/
theorem filterMap_guarded {c : Entry → Bool} (f : Entry → String)
    (l : List Entry) (hall : ∀ e ∈ l, c e = true) :
    l.filterMap (fun e => if c e then some (f e) else none) = l.map f := by
  induction l with
  | nil => simp
  | cons a t ih =>
      have ha := hall a (by simp)
      have ht : ∀ e ∈ t, c e = true := fun e he => hall e (by simp [he])
      simp [List.filterMap_cons, ha, ih ht]

/-- With distinct DID strings, the seeded DID map holds one entry per DID
record. -/
theorem length_buildDidMap (l : List Entry)
    (h : (l.map (fun e => e.did)).Nodup) :
    (VaultSynchronizer.buildDidMap l).length = l.length := by
  have hm := filterMap_always_some (fun e => e.did) l
  have h2 := @length_foldl_setA_by (fun e => some e.did)
    (fun m e => setA m e.did e) (fun _ _ => rfl) l []
    (by simpa [keysA, hm] using h)
  simpa [VaultSynchronizer.buildDidMap, hm] using h2

/-- With distinct kids, the seeded key map holds one entry per key
record. -/
theorem length_buildKeyMap (l : List Entry)
    (h : (l.map (fun e => e.kid)).Nodup) :
    (VaultSynchronizer.buildKeyMap l).length = l.length := by
  have hm := filterMap_always_some (fun e => e.kid) l
  have h2 := @length_foldl_setA_by (fun e => some e.kid)
    (fun m e => setA m e.kid e) (fun _ _ => rfl) l []
    (by simpa [keysA, hm] using h)
  simpa [VaultSynchronizer.buildKeyMap, hm] using h2

/-- With every private key carrying a truthy alias and the aliases
distinct, the seeded private-key map holds one entry per record. -/
theorem length_buildPrivateKeyMap (l : List Entry)
    (hall : ∀ e ∈ l, VaultSynchronizer.truthy e.aliasName = true)
    (h : (l.map (fun e => e.aliasName.getD "")).Nodup) :
    (VaultSynchronizer.buildPrivateKeyMap l).length = l.length := by
  have hm := filterMap_guarded (c := fun e => VaultSynchronizer.truthy e.aliasName)
    (fun e => e.aliasName.getD "") l hall
  have hstep : ∀ (m : FlatMap) (e : Entry),
      (if VaultSynchronizer.truthy e.aliasName then
        setA m (e.aliasName.getD "") e else m) =
      match (if VaultSynchronizer.truthy e.aliasName then
          some (e.aliasName.getD "") else none) with
      | some s => setA m s e
      | none => m := by
    intro m e
    by_cases hc : VaultSynchronizer.truthy e.aliasName = true <;> simp [hc]
  have h2 := @length_foldl_setA_by
    (fun e => if VaultSynchronizer.truthy e.aliasName then
      some (e.aliasName.getD "") else none)
    (fun m e => if VaultSynchronizer.truthy e.aliasName then
      setA m (e.aliasName.getD "") e else m)
    hstep l [] (by simpa [keysA, hm] using h)
  simpa [VaultSynchronizer.buildPrivateKeyMap, hm] using h2

/-- With every credential carrying a truthy id and the derived id-suffix
keys distinct, the seeded credential map holds one entry per record. -/
theorem length_buildVcMap (l : List Entry)
    (hall : ∀ e ∈ l, VaultSynchronizer.truthy e.id = true)
    (h : (l.map (fun e => VaultSynchronizer.vcKey (e.id.getD ""))).Nodup) :
    (VaultSynchronizer.buildVcMap l).length = l.length := by
  have hm := filterMap_guarded (c := fun e => VaultSynchronizer.truthy e.id)
    (fun e => VaultSynchronizer.vcKey (e.id.getD "")) l hall
  have hstep : ∀ (m : FlatMap) (e : Entry),
      (if VaultSynchronizer.truthy e.id then
        setA m (VaultSynchronizer.vcKey (e.id.getD "")) e else m) =
      match (if VaultSynchronizer.truthy e.id then
          some (VaultSynchronizer.vcKey (e.id.getD "")) else none) with
      | some s => setA m s e
      | none => m := by
    intro m e
    by_cases hc : VaultSynchronizer.truthy e.id = true <;> simp [hc]
  have h2 := @length_foldl_setA_by
    (fun e => if VaultSynchronizer.truthy e.id then
      some (VaultSynchronizer.vcKey (e.id.getD "")) else none)
    (fun m e => if VaultSynchronizer.truthy e.id then
      setA m (VaultSynchronizer.vcKey (e.id.getD "")) e else m)
    hstep l [] (by simpa [keysA, hm] using h)
  simpa [VaultSynchronizer.buildVcMap, hm] using h2

/-! Claim theorems. -/

/-- C1: the claim states that a successful `Operator.use(v)` implies seeding
completed (all four flat files exist) and that a seeding failure makes
`use` fail.  In the VaultOperator iteration wired by src/src/vault/index.ts
the `seedFilesFromVault` call is commented out: at a state where `alice`
exists in storage and her directory is unseeded, `use` returns success and
none of the four flat adapter files exists, while the superseded iteration
in src/unnamed/part_011 seeds all four before succeeding. -/
theorem use_succeeds_without_seeding :
    (VaultOperator.use stAlice "alice").2 = Except.ok () ∧
    (VaultOperator.use stAlice "alice").1.flatFiles = [] ∧
    lookupA (VaultOperator.use stAlice "alice").1.flatFiles
      "vaults/alice/didstore.json" = none ∧
    lookupA (VaultOperator.use stAlice "alice").1.flatFiles
      "vaults/alice/keystore.json" = none ∧
    lookupA (VaultOperator.use stAlice "alice").1.flatFiles
      "vaults/alice/private-keystore.json" = none ∧
    lookupA (VaultOperator.use stAlice "alice").1.flatFiles
      "vaults/alice/vcstore.json" = none ∧
    (VaultOperator.usePart011 stAlice "alice").2 = Except.ok () ∧
    (lookupA (VaultOperator.usePart011 stAlice "alice").1.flatFiles
      "vaults/alice/didstore.json").isSome = true ∧
    (lookupA (VaultOperator.usePart011 stAlice "alice").1.flatFiles
      "vaults/alice/keystore.json").isSome = true ∧
    (lookupA (VaultOperator.usePart011 stAlice "alice").1.flatFiles
      "vaults/alice/private-keystore.json").isSome = true ∧
    (lookupA (VaultOperator.usePart011 stAlice "alice").1.flatFiles
      "vaults/alice/vcstore.json").isSome = true := by
  decide

/-- C4: `update` on a missing vault fails with NotFound, and the merged
record it produces preserves the stored id and replaces present sections
wholesale; but `update` schedules its locked file write without awaiting
it, so after `update` resolves successfully a `get` still returns the
previous record — the merge is only visible to `get` once the deferred
write completes. -/
theorem update_resolves_before_write_lands :
    FileVaultStorage.update ({ } : StorageState) "alice" patchDid =
      Except.error (VaultErr.notFound "alice") ∧
    FileVaultStorage.update sstAliceDid "alice" patchDid =
      Except.ok { files := [("alice", vaultAliceDid)],
                  pending := [("alice", mergeVault vaultAliceDid patchDid)] } ∧
    FileVaultStorage.get
      { files := [("alice", vaultAliceDid)],
        pending := [("alice", mergeVault vaultAliceDid patchDid)] } "alice" =
      Except.ok vaultAliceDid ∧
    vaultAliceDid ≠ mergeVault vaultAliceDid patchDid ∧
    FileVaultStorage.get (FileVaultStorage.flush
      { files := [("alice", vaultAliceDid)],
        pending := [("alice", mergeVault vaultAliceDid patchDid)] }) "alice" =
      Except.ok (mergeVault vaultAliceDid patchDid) ∧
    (mergeVault vaultAliceDid patchDid).id = "alice" ∧
    (mergeVault vaultAliceDid patchDid).didStore =
      [{ did := "did:key:new", payload := "doc1" }] := by
  decide

/-- C5 counterexample: seeding a vault whose private-key section holds one
entry without an `alias` writes `private-keystore.json` as the empty
object, so the parsed entry count is 0, not P = 1. -/
theorem seed_count_counterexample :
    vaultAliceNoAliasKey.privateKeyStore.length = 1 ∧
    (VaultSynchronizer.seedFilesFromVault stAliceNoAliasKey "alice").2 =
      Except.ok () ∧
    lookupA (VaultSynchronizer.seedFilesFromVault stAliceNoAliasKey
        "alice").1.flatFiles "vaults/alice/private-keystore.json" =
      some [] ∧
    ¬ ((lookupA (VaultSynchronizer.seedFilesFromVault stAliceNoAliasKey
        "alice").1.flatFiles "vaults/alice/private-keystore.json").map
          List.length = some vaultAliceNoAliasKey.privateKeyStore.length) := by
  decide

/-- C6: a write event arriving while no vault is active is dropped with no
state change at all, and a write event whose basename matches none of the
four known flat filenames is likewise dropped. -/
theorem unattributable_or_unknown_write_is_noop
    (st : SyncState) (ev : FileChangedEvent) :
    (st.activeVaultId = none →
      VaultSynchronizer.handleFileChange st ev = st) ∧
    (sectionOfFilename (basename ev.filePath) = none →
      VaultSynchronizer.handleFileChange st ev = st) := by
  constructor
  · intro h
    by_cases h1 : (ev.operation != FileOp.write) = true
    · simp [VaultSynchronizer.handleFileChange, h1]
    · by_cases h2 : (!(validVaultId ev.vaultId)) = true
      · simp [VaultSynchronizer.handleFileChange, h1, h2]
      · cases h3 : sectionOfFilename (basename ev.filePath) with
        | none =>
            simp [VaultSynchronizer.handleFileChange, h1, h2, h3]
        | some sec =>
            simp [VaultSynchronizer.handleFileChange,
              VaultSynchronizer.syncSection, h1, h2, h3, h]
  · intro h
    by_cases h1 : (ev.operation != FileOp.write) = true
    · simp [VaultSynchronizer.handleFileChange, h1]
    · by_cases h2 : (!(validVaultId ev.vaultId)) = true
      · simp [VaultSynchronizer.handleFileChange, h1, h2]
      · simp [VaultSynchronizer.handleFileChange, h1, h2, h]

/-- C6 witness: a known-filename write with no active vault, and an
unknown-filename write with a vault active, both leave the state intact. -/
theorem unattributable_or_unknown_write_is_noop_witness :
    VaultSynchronizer.handleFileChange stAlice
      ⟨"vaults/alice/didstore.json", "alice", FileOp.write⟩ = stAlice ∧
    VaultSynchronizer.handleFileChange
      { stAlice with activeVaultId := some "alice" }
      ⟨"vaults/alice/unknown.json", "alice", FileOp.write⟩ =
      { stAlice with activeVaultId := some "alice" } := by
  exact ⟨(unattributable_or_unknown_write_is_noop stAlice
      ⟨"vaults/alice/didstore.json", "alice", FileOp.write⟩).1 (by decide),
    (unattributable_or_unknown_write_is_noop
      { stAlice with activeVaultId := some "alice" }
      ⟨"vaults/alice/unknown.json", "alice", FileOp.write⟩).2 (by decide)⟩

/-- C7: seeding an existing vault whose directory already holds the
DID-store flat file writes nothing: the whole state is unchanged except the
active-vault slot, which is set to the vault id, and the call succeeds. -/
theorem seed_is_idempotent_once_seeded
    (st : SyncState) (v : String) (m : FlatMap)
    (h1 : FileVaultStorage.existsVault st.storage v = true)
    (h2 : lookupA st.flatFiles
        (pathJoin (VaultSynchronizer.getVaultDir v) didStoreFile) = some m) :
    VaultSynchronizer.seedFilesFromVault st v =
      ({ st with activeVaultId := some v }, Except.ok ()) := by
  simp [VaultSynchronizer.seedFilesFromVault, h1, h2]

/-- C7 witness: re-seeding `alice` after a first seeding leaves every flat
file untouched. -/
theorem seed_is_idempotent_once_seeded_witness :
    VaultSynchronizer.seedFilesFromVault
      { stAlice with flatFiles := [("vaults/alice/didstore.json", [])] }
      "alice" =
      ({ stAlice with flatFiles := [("vaults/alice/didstore.json", [])],
                      activeVaultId := some "alice" }, Except.ok ()) := by
  exact seed_is_idempotent_once_seeded
    { stAlice with flatFiles := [("vaults/alice/didstore.json", [])] }
    "alice" [] (by decide) (by decide)

/-- C8: the claim expects the second `createNew` to fail with AlreadyExists
leaving the first record intact, and `create` to fail exactly when the file
exists.  The storage layer honors this for a genuine record, and the
part_011 operator iteration realizes the claim; but the wired
`VaultOperator.createNew` hands `create` the serialized string, whose
`toPersistence` throws a TypeError before the exists check — so the FIRST
call already fails, nothing is ever stored, and the second call fails with
the same TypeError, never with AlreadyExists. -/
theorem createNew_throws_before_exists_check :
    VaultOperator.createNew ({ } : SyncState) "bob" "t1" =
      (({ } : SyncState), Except.error VaultErr.typeError) ∧
    VaultOperator.createNew
        (VaultOperator.createNew ({ } : SyncState) "bob" "t1").1 "bob" "t2" =
      (({ } : SyncState), Except.error VaultErr.typeError) ∧
    FileVaultStorage.create ({ } : StorageState) "bob"
        (StorageArg.record vaultBob) =
      Except.ok { files := [("bob", vaultBob)], pending := [] } ∧
    FileVaultStorage.create { files := [("bob", vaultBob)], pending := [] }
        "bob" (StorageArg.record vaultBob) =
      Except.error (VaultErr.alreadyExists "bob") ∧
    (VaultOperator.createNewPart011 ({ } : SyncState) "bob" "t1").2 =
      Except.ok () ∧
    lookupA (VaultOperator.createNewPart011 ({ } : SyncState) "bob"
        "t1").1.storage.files "bob" =
      some { id := "bob", identity := none, didStore := [], keyStore := [],
             privateKeyStore := [], vcStore := [], createdAt := "t1" } ∧
    VaultOperator.createNewPart011
        (VaultOperator.createNewPart011 ({ } : SyncState) "bob" "t1").1
        "bob" "t2" =
      ((VaultOperator.createNewPart011 ({ } : SyncState) "bob" "t1").1,
        Except.error (VaultErr.alreadyExists "bob")) := by
  decide

/-- C9: every routed filesystem operation fails with NoActiveVault when no
vault is active; with vault `v` active, a write resolves to
`<baseDir>/v/<filename>`, ensures the vault directory, writes there, and
emits exactly one `write` event carrying `v` and the resolved path. -/
theorem router_ops_require_active_vault
    (st : RouterState) (f d dp : String) :
    (st.active = none →
      DynamicVaultFilesystem.existsSync st f =
        Except.error VaultErr.noActiveVault ∧
      DynamicVaultFilesystem.readFileSync st f =
        Except.error VaultErr.noActiveVault ∧
      DynamicVaultFilesystem.writeFileSync st f d =
        Except.error VaultErr.noActiveVault ∧
      DynamicVaultFilesystem.deleteFileSync st f =
        Except.error VaultErr.noActiveVault ∧
      DynamicVaultFilesystem.ensureDirSync st dp =
        Except.error VaultErr.noActiveVault ∧
      DynamicVaultFilesystem.deleteDirSync st dp =
        Except.error VaultErr.noActiveVault ∧
      DynamicVaultFilesystem.readDirSync st dp =
        Except.error VaultErr.noActiveVault) ∧
    (∀ v, st.active = some v →
      DynamicVaultFilesystem.writeFileSync st f d =
        Except.ok
          { st with
            dirs := if st.dirs.contains (pathJoin baseDir v) then st.dirs
                    else st.dirs ++ [pathJoin baseDir v]
            files := setA st.files (pathJoin (pathJoin baseDir v) f) d
            events := st.events ++
              [⟨pathJoin (pathJoin baseDir v) f, v, FileOp.write⟩] }) := by
  constructor
  · intro h
    refine ⟨?_, ?_, ?_, ?_, ?_, ?_, ?_⟩ <;>
      simp [DynamicVaultFilesystem.existsSync,
        DynamicVaultFilesystem.readFileSync,
        DynamicVaultFilesystem.writeFileSync,
        DynamicVaultFilesystem.deleteFileSync,
        DynamicVaultFilesystem.ensureDirSync,
        DynamicVaultFilesystem.deleteDirSync,
        DynamicVaultFilesystem.readDirSync,
        DynamicVaultFilesystem.getVaultDir, h]
  · intro v h
    simp [DynamicVaultFilesystem.writeFileSync, h]

/-- C9 witness: with no active vault every routed operation reports
NoActiveVault; with `alice` active a write of `keystore.json` lands at the
resolved path and emits its single write event. -/
theorem router_ops_require_active_vault_witness :
    DynamicVaultFilesystem.writeFileSync ({ } : RouterState)
      "keystore.json" "data" = Except.error VaultErr.noActiveVault ∧
    DynamicVaultFilesystem.readDirSync ({ } : RouterState) "" =
      Except.error VaultErr.noActiveVault ∧
    DynamicVaultFilesystem.writeFileSync
      { active := some "alice" } "keystore.json" "data" =
      Except.ok
        { active := some "alice"
          dirs := ["vaults/alice"]
          files := [("vaults/alice/keystore.json", "data")]
          events := [⟨"vaults/alice/keystore.json", "alice",
            FileOp.write⟩] } := by
  have h1 := (router_ops_require_active_vault ({ } : RouterState)
    "keystore.json" "data" "").1 rfl
  have h2 := (router_ops_require_active_vault
    ({ active := some "alice" } : RouterState)
    "keystore.json" "data" "").2 "alice" rfl
  exact ⟨h1.2.2.1, h1.2.2.2.2.2.2, by rw [h2]; decide⟩

/-- C3: a processed write event on a recognized flat filename produces a
canonical record equal to the previous one with exactly the matched section
replaced by the values of the parsed flat-file map; id, identity, createdAt
and the other three sections are unchanged, and that is the record the
storage write lands. -/
theorem fold_replaces_exactly_one_section
    (st : SyncState) (sec : Section) (p v : String)
    (cur : IdentityVault) (m : FlatMap)
    (h1 : lookupA st.storage.files v = some cur)
    (h2 : lookupA st.flatFiles p = some m)
    (h3 : validVaultId v = true)
    (h4 : st.storage.pending = []) :
    VaultSynchronizer.processSectionUpdate st sec p v =
      Except.ok { st with storage :=
        { files := st.storage.files
          pending := [(v, mergeVault cur
            (sectionPatch sec v (m.map (fun kv => kv.2))))] } } ∧
    getSection (mergeVault cur
        (sectionPatch sec v (m.map (fun kv => kv.2)))) sec =
      m.map (fun kv => kv.2) ∧
    (∀ s, s ≠ sec →
      getSection (mergeVault cur
          (sectionPatch sec v (m.map (fun kv => kv.2)))) s =
        getSection cur s) ∧
    (mergeVault cur (sectionPatch sec v (m.map (fun kv => kv.2)))).id =
      cur.id ∧
    (mergeVault cur (sectionPatch sec v (m.map (fun kv => kv.2)))).identity =
      cur.identity ∧
    (mergeVault cur (sectionPatch sec v (m.map (fun kv => kv.2)))).createdAt =
      cur.createdAt ∧
    lookupA (FileVaultStorage.flush
      { files := st.storage.files
        pending := [(v, mergeVault cur
          (sectionPatch sec v (m.map (fun kv => kv.2))))] }).files v =
      some (mergeVault cur (sectionPatch sec v (m.map (fun kv => kv.2)))) := by
  refine ⟨?_, ?_, ?_, ?_, ?_, ?_, ?_⟩
  · simp [VaultSynchronizer.processSectionUpdate, FileVaultStorage.get, h1,
      h2, h3, FileVaultStorage.update, h4]
  · cases sec <;> simp [mergeVault, sectionPatch, getSection]
  · intro s hs
    cases sec <;> cases s <;>
      simp_all [mergeVault, sectionPatch, getSection]
  · cases sec <;> simp [mergeVault, sectionPatch]
  · cases sec <;> simp [mergeVault, sectionPatch]
  · cases sec <;> simp [mergeVault, sectionPatch]
  · simp [FileVaultStorage.flush, lookupA_setA_self]

/-- C3 witness: folding a one-entry DID-store file into `alice` queues
exactly the record with the DID section replaced. -/
theorem fold_replaces_exactly_one_section_witness :
    VaultSynchronizer.processSectionUpdate stAliceFlat Section.didStore
      "vaults/alice/didstore.json" "alice" =
      Except.ok { stAliceFlat with storage :=
        { files := stAliceFlat.storage.files
          pending := [("alice", mergeVault vaultAliceDid
            (sectionPatch Section.didStore "alice"
              (flatDidNew.map (fun kv => kv.2))))] } } := by
  exact (fold_replaces_exactly_one_section stAliceFlat Section.didStore
    "vaults/alice/didstore.json" "alice" vaultAliceDid flatDidNew
    (by decide) (by decide) (by decide) (by decide)).1

/-- C10: the synchronizer validates the write event's vault id and then
discards it — the queued fold carries the synchronizer's active vault id at
enqueue time.  When the active vault has changed to `v2` before the event
is handled, the file's contents are folded into `v2`'s canonical record and
the record of the vault `w` whose directory was written stays unchanged;
an event with an invalid vault id is dropped. -/
theorem fold_targets_active_vault_at_enqueue
    (st : SyncState) (p w v2 : String) (sec : Section)
    (curV curW : IdentityVault) (m : FlatMap)
    (hA : st.activeVaultId = some v2)
    (hw : validVaultId w = true)
    (hv2 : validVaultId v2 = true)
    (hsec : sectionOfFilename (basename p) = some sec)
    (hq : st.queues = [])
    (hpend : st.storage.pending = [])
    (hV : lookupA st.storage.files v2 = some curV)
    (hW : lookupA st.storage.files w = some curW)
    (hne : w ≠ v2)
    (hm : lookupA st.flatFiles p = some m) :
    (VaultSynchronizer.handleFileChange st ⟨p, w, FileOp.write⟩).queues =
      [(v2, [⟨sec, p, v2⟩])] ∧
    lookupA (FileVaultStorage.flush (VaultSynchronizer.runQueue
        (VaultSynchronizer.handleFileChange st ⟨p, w, FileOp.write⟩)
        v2).storage).files v2 =
      some (mergeVault curV
        (sectionPatch sec v2 (m.map (fun kv => kv.2)))) ∧
    lookupA (FileVaultStorage.flush (VaultSynchronizer.runQueue
        (VaultSynchronizer.handleFileChange st ⟨p, w, FileOp.write⟩)
        v2).storage).files w = some curW ∧
    (∀ w3, validVaultId w3 = false →
      VaultSynchronizer.handleFileChange st ⟨p, w3, FileOp.write⟩ = st) := by
  have h1 : VaultSynchronizer.handleFileChange st ⟨p, w, FileOp.write⟩ =
      { st with queues := [(v2, [⟨sec, p, v2⟩])] } := by
    simp [VaultSynchronizer.handleFileChange, hw, hsec,
      VaultSynchronizer.syncSection, hA, hq, setA, lookupA]
  have h2 : VaultSynchronizer.runQueue
      { st with queues := [(v2, [⟨sec, p, v2⟩])] } v2 =
      { st with
        queues := [(v2, [])]
        storage := { files := st.storage.files
                     pending := [(v2, mergeVault curV
                       (sectionPatch sec v2 (m.map (fun kv => kv.2))))] } } := by
    simp [VaultSynchronizer.runQueue, VaultSynchronizer.runFolds,
      VaultSynchronizer.runFold, VaultSynchronizer.processSectionUpdate,
      FileVaultStorage.get, hV, hm, hv2, FileVaultStorage.update, hpend,
      lookupA, setA]
  refine ⟨by rw [h1], ?_, ?_, ?_⟩
  · rw [h1, h2]
    simp [FileVaultStorage.flush, lookupA_setA_self]
  · rw [h1, h2]
    simp only [FileVaultStorage.flush, List.foldl_cons, List.foldl_nil]
    rw [lookupA_setA_ne _ _ (Ne.symm hne)]
    exact hW
  · intro w3 hw3
    simp [VaultSynchronizer.handleFileChange, hw3]

/-- C10 witness: a write landing in `alice`'s directory whose fold runs
after the active vault switched to `bob` updates `bob`'s record and leaves
`alice`'s untouched. -/
theorem fold_targets_active_vault_at_enqueue_witness :
    (VaultSynchronizer.handleFileChange stCross
      ⟨"vaults/alice/didstore.json", "alice", FileOp.write⟩).queues =
      [("bob", [⟨Section.didStore, "vaults/alice/didstore.json", "bob"⟩])] ∧
    lookupA (FileVaultStorage.flush (VaultSynchronizer.runQueue
        (VaultSynchronizer.handleFileChange stCross
          ⟨"vaults/alice/didstore.json", "alice", FileOp.write⟩)
        "bob").storage).files "bob" =
      some (mergeVault vaultBob (sectionPatch Section.didStore "bob"
        (flatDidNew.map (fun kv => kv.2)))) ∧
    lookupA (FileVaultStorage.flush (VaultSynchronizer.runQueue
        (VaultSynchronizer.handleFileChange stCross
          ⟨"vaults/alice/didstore.json", "alice", FileOp.write⟩)
        "bob").storage).files "alice" = some vaultAliceDid := by
  have h := fold_targets_active_vault_at_enqueue stCross
    "vaults/alice/didstore.json" "alice" "bob" Section.didStore
    vaultBob vaultAliceDid flatDidNew
    (by decide) (by decide) (by decide) (by decide) (by decide) (by decide)
    (by decide) (by decide) (by decide) (by decide)
  exact ⟨h.1, h.2.1, h.2.2.1⟩

/-- C2: two sequential writes to the same flat file for the same active
vault queue two folds in observation order (each enqueue chains after
whatever is queued for that vault id), the two scheduled record writes are
each wholly one write's parsed content, the canonical record after both
folds holds exactly the second write's content for the section (all other
fields as before), and a failing fold does not block the next queued fold
for that vault. -/
theorem sequential_folds_fifo_last_write_wins
    (st : SyncState) (v p pBad : String) (sec : Section)
    (r0 : IdentityVault) (m1 m2 : FlatMap)
    (hA : st.activeVaultId = some v)
    (hv : validVaultId v = true)
    (hsec : sectionOfFilename (basename p) = some sec)
    (hq : st.queues = [])
    (hpend : st.storage.pending = [])
    (hV : lookupA st.storage.files v = some r0)
    (hbadne : pBad ≠ p)
    (hbadnone : lookupA st.flatFiles pBad = none) :
    (∀ q, (VaultSynchronizer.syncSection
        { st with queues := [(v, q)] } sec p).queues =
      [(v, q ++ [⟨sec, p, v⟩])]) ∧
    (twoWriteRun st v p m1 m2).storage.pending =
      [(v, mergeVault r0 (sectionPatch sec v (m1.map (fun kv => kv.2)))),
       (v, mergeVault r0 (sectionPatch sec v (m2.map (fun kv => kv.2))))] ∧
    lookupA (FileVaultStorage.flush
        (twoWriteRun st v p m1 m2).storage).files v =
      some (mergeVault r0 (sectionPatch sec v (m2.map (fun kv => kv.2)))) ∧
    getSection (mergeVault r0
        (sectionPatch sec v (m2.map (fun kv => kv.2)))) sec =
      m2.map (fun kv => kv.2) ∧
    (∀ s, s ≠ sec →
      getSection (mergeVault r0
          (sectionPatch sec v (m2.map (fun kv => kv.2)))) s =
        getSection r0 s) ∧
    (VaultSynchronizer.runQueue
        { st with
          flatFiles := setA st.flatFiles p m2
          queues := [(v, [⟨sec, pBad, v⟩, ⟨sec, p, v⟩])] } v).storage.pending =
      [(v, mergeVault r0 (sectionPatch sec v (m2.map (fun kv => kv.2))))] := by
  have hm1 : lookupA (setA st.flatFiles p m1) p = some m1 :=
    lookupA_setA_self _ _ _
  have hm2 : lookupA (setA (setA st.flatFiles p m1) p m2) p = some m2 :=
    lookupA_setA_self _ _ _
  have hm2' : lookupA (setA st.flatFiles p m2) p = some m2 :=
    lookupA_setA_self _ _ _
  have hbad : lookupA (setA st.flatFiles p m2) pBad = none := by
    rw [lookupA_setA_ne _ _ (Ne.symm hbadne)]
    exact hbadnone
  refine ⟨?_, ?_, ?_, ?_, ?_, ?_⟩
  · intro q
    simp [VaultSynchronizer.syncSection, hA, lookupA, setA]
  · simp [twoWriteRun, writeFlat, VaultSynchronizer.handleFileChange, hv,
      hsec, VaultSynchronizer.syncSection, hA, hq,
      VaultSynchronizer.runQueue, VaultSynchronizer.runFolds,
      VaultSynchronizer.runFold, VaultSynchronizer.processSectionUpdate,
      FileVaultStorage.get, hV, hm1, hm2, FileVaultStorage.update, hpend,
      lookupA, setA]
  · simp [twoWriteRun, writeFlat, VaultSynchronizer.handleFileChange, hv,
      hsec, VaultSynchronizer.syncSection, hA, hq,
      VaultSynchronizer.runQueue, VaultSynchronizer.runFolds,
      VaultSynchronizer.runFold, VaultSynchronizer.processSectionUpdate,
      FileVaultStorage.get, hV, hm1, hm2, FileVaultStorage.update, hpend,
      FileVaultStorage.flush, lookupA_setA_self, lookupA, setA]
  · cases sec <;> simp [mergeVault, sectionPatch, getSection]
  · intro s hs
    cases sec <;> cases s <;>
      simp_all [mergeVault, sectionPatch, getSection]
  · simp [VaultSynchronizer.runQueue, VaultSynchronizer.runFolds,
      VaultSynchronizer.runFold, VaultSynchronizer.processSectionUpdate,
      FileVaultStorage.get, hV, hbad, hm2', hv, FileVaultStorage.update,
      hpend, lookupA, setA]

/-- C2 witness: two concrete writes to `alice`'s DID-store file fold in
order and leave exactly the second write's single entry in the DID
section. -/
theorem sequential_folds_fifo_last_write_wins_witness :
    (twoWriteRun { stAlice with activeVaultId := some "alice" } "alice"
        "vaults/alice/didstore.json" flatDidNew
        [("d2", { did := "d2", payload := "doc2" })]).storage.pending =
      [("alice", mergeVault vaultAlice (sectionPatch Section.didStore "alice"
        (flatDidNew.map (fun kv => kv.2)))),
       ("alice", mergeVault vaultAlice (sectionPatch Section.didStore "alice"
        [{ did := "d2", payload := "doc2" }]))] ∧
    lookupA (FileVaultStorage.flush
        (twoWriteRun { stAlice with activeVaultId := some "alice" } "alice"
          "vaults/alice/didstore.json" flatDidNew
          [("d2", { did := "d2", payload := "doc2" })]).storage).files
        "alice" =
      some (mergeVault vaultAlice (sectionPatch Section.didStore "alice"
        [{ did := "d2", payload := "doc2" }])) := by
  have h := sequential_folds_fifo_last_write_wins
    { stAlice with activeVaultId := some "alice" } "alice"
    "vaults/alice/didstore.json" "vaults/alice/bad.json" Section.didStore
    vaultAlice flatDidNew [("d2", { did := "d2", payload := "doc2" })]
    (by decide) (by decide) (by decide) (by decide) (by decide) (by decide)
    (by decide) (by decide)
  exact ⟨h.2.1, h.2.2.1⟩

/-- C5 (amended): seeding a not-yet-seeded existing vault writes all four
flat files, keyed by DID string, kid, alias, and credential-id suffix; the
parsed entry counts equal N, M, P, Q whenever each entry carries its
natural key (a truthy alias for private keys, a truthy id for credentials)
and the keys within each section are distinct; an empty section is written
as the empty object, present rather than absent. -/
theorem seed_writes_counted_maps
    (st : SyncState) (v : String) (vault : IdentityVault)
    (hEx : lookupA st.storage.files v = some vault)
    (hNot : lookupA st.flatFiles
      (pathJoin (VaultSynchronizer.getVaultDir v) didStoreFile) = none)
    (hdN : (vault.didStore.map (fun e => e.did)).Nodup)
    (hkN : (vault.keyStore.map (fun e => e.kid)).Nodup)
    (hpA : ∀ e ∈ vault.privateKeyStore,
      VaultSynchronizer.truthy e.aliasName = true)
    (hpN : (vault.privateKeyStore.map (fun e => e.aliasName.getD "")).Nodup)
    (hvA : ∀ e ∈ vault.vcStore, VaultSynchronizer.truthy e.id = true)
    (hvN : (vault.vcStore.map
      (fun e => VaultSynchronizer.vcKey (e.id.getD ""))).Nodup) :
    (VaultSynchronizer.seedFilesFromVault st v).2 = Except.ok () ∧
    (VaultSynchronizer.seedFilesFromVault st v).1.activeVaultId = some v ∧
    (lookupA (VaultSynchronizer.seedFilesFromVault st v).1.flatFiles
        (pathJoin (VaultSynchronizer.getVaultDir v) didStoreFile)).map
      List.length = some vault.didStore.length ∧
    (lookupA (VaultSynchronizer.seedFilesFromVault st v).1.flatFiles
        (pathJoin (VaultSynchronizer.getVaultDir v) keyStoreFile)).map
      List.length = some vault.keyStore.length ∧
    (lookupA (VaultSynchronizer.seedFilesFromVault st v).1.flatFiles
        (pathJoin (VaultSynchronizer.getVaultDir v) privateKeyStoreFile)).map
      List.length = some vault.privateKeyStore.length ∧
    (lookupA (VaultSynchronizer.seedFilesFromVault st v).1.flatFiles
        (pathJoin (VaultSynchronizer.getVaultDir v) vcStoreFile)).map
      List.length = some vault.vcStore.length ∧
    (vault.didStore = [] →
      lookupA (VaultSynchronizer.seedFilesFromVault st v).1.flatFiles
        (pathJoin (VaultSynchronizer.getVaultDir v) didStoreFile) = some []) ∧
    (vault.vcStore = [] →
      lookupA (VaultSynchronizer.seedFilesFromVault st v).1.flatFiles
        (pathJoin (VaultSynchronizer.getVaultDir v) vcStoreFile) = some []) := by
  have hex : FileVaultStorage.existsVault st.storage v = true := by
    simp [FileVaultStorage.existsVault, hEx]
  have hget : FileVaultStorage.get st.storage v = Except.ok vault := by
    simp [FileVaultStorage.get, hEx]
  have hseed : VaultSynchronizer.seedFilesFromVault st v =
      ({ st with
         flatFiles := setA (setA (setA (setA st.flatFiles
           (pathJoin (VaultSynchronizer.getVaultDir v) didStoreFile)
           (if vault.didStore.length > 0 then
             VaultSynchronizer.buildDidMap vault.didStore else []))
           (pathJoin (VaultSynchronizer.getVaultDir v) keyStoreFile)
           (if vault.keyStore.length > 0 then
             VaultSynchronizer.buildKeyMap vault.keyStore else []))
           (pathJoin (VaultSynchronizer.getVaultDir v) privateKeyStoreFile)
           (if vault.privateKeyStore.length > 0 then
             VaultSynchronizer.buildPrivateKeyMap vault.privateKeyStore
            else []))
           (pathJoin (VaultSynchronizer.getVaultDir v) vcStoreFile)
           (if vault.vcStore.length > 0 then
             VaultSynchronizer.buildVcMap vault.vcStore else [])
         activeVaultId := some v }, Except.ok ()) := by
    simp [VaultSynchronizer.seedFilesFromVault, hex, hNot, hget]
  have nVD : pathJoin (VaultSynchronizer.getVaultDir v) vcStoreFile ≠
      pathJoin (VaultSynchronizer.getVaultDir v) didStoreFile :=
    pathJoin_right_ne _ (by decide)
  have nVK : pathJoin (VaultSynchronizer.getVaultDir v) vcStoreFile ≠
      pathJoin (VaultSynchronizer.getVaultDir v) keyStoreFile :=
    pathJoin_right_ne _ (by decide)
  have nVP : pathJoin (VaultSynchronizer.getVaultDir v) vcStoreFile ≠
      pathJoin (VaultSynchronizer.getVaultDir v) privateKeyStoreFile :=
    pathJoin_right_ne _ (by decide)
  have nPD : pathJoin (VaultSynchronizer.getVaultDir v) privateKeyStoreFile ≠
      pathJoin (VaultSynchronizer.getVaultDir v) didStoreFile :=
    pathJoin_right_ne _ (by decide)
  have nPK : pathJoin (VaultSynchronizer.getVaultDir v) privateKeyStoreFile ≠
      pathJoin (VaultSynchronizer.getVaultDir v) keyStoreFile :=
    pathJoin_right_ne _ (by decide)
  have nKD : pathJoin (VaultSynchronizer.getVaultDir v) keyStoreFile ≠
      pathJoin (VaultSynchronizer.getVaultDir v) didStoreFile :=
    pathJoin_right_ne _ (by decide)
  have hdRead : lookupA (VaultSynchronizer.seedFilesFromVault st
      v).1.flatFiles (pathJoin (VaultSynchronizer.getVaultDir v)
        didStoreFile) =
      some (if vault.didStore.length > 0 then
        VaultSynchronizer.buildDidMap vault.didStore else []) := by
    rw [hseed]
    show lookupA _ _ = _
    rw [lookupA_setA_ne _ _ nVD, lookupA_setA_ne _ _ nPD,
      lookupA_setA_ne _ _ nKD]
    exact lookupA_setA_self _ _ _
  have hkRead : lookupA (VaultSynchronizer.seedFilesFromVault st
      v).1.flatFiles (pathJoin (VaultSynchronizer.getVaultDir v)
        keyStoreFile) =
      some (if vault.keyStore.length > 0 then
        VaultSynchronizer.buildKeyMap vault.keyStore else []) := by
    rw [hseed]
    show lookupA _ _ = _
    rw [lookupA_setA_ne _ _ nVK, lookupA_setA_ne _ _ nPK]
    exact lookupA_setA_self _ _ _
  have hpRead : lookupA (VaultSynchronizer.seedFilesFromVault st
      v).1.flatFiles (pathJoin (VaultSynchronizer.getVaultDir v)
        privateKeyStoreFile) =
      some (if vault.privateKeyStore.length > 0 then
        VaultSynchronizer.buildPrivateKeyMap vault.privateKeyStore
       else []) := by
    rw [hseed]
    show lookupA _ _ = _
    rw [lookupA_setA_ne _ _ nVP]
    exact lookupA_setA_self _ _ _
  have hvRead : lookupA (VaultSynchronizer.seedFilesFromVault st
      v).1.flatFiles (pathJoin (VaultSynchronizer.getVaultDir v)
        vcStoreFile) =
      some (if vault.vcStore.length > 0 then
        VaultSynchronizer.buildVcMap vault.vcStore else []) := by
    rw [hseed]
    exact lookupA_setA_self _ _ _
  refine ⟨by rw [hseed], by rw [hseed], ?_, ?_, ?_, ?_, ?_, ?_⟩
  · rw [hdRead]
    by_cases hd : vault.didStore = []
    · simp [hd]
    · have hpos : vault.didStore.length > 0 := List.length_pos.mpr hd
      simp [hpos, length_buildDidMap _ hdN]
  · rw [hkRead]
    by_cases hk : vault.keyStore = []
    · simp [hk]
    · have hpos : vault.keyStore.length > 0 := List.length_pos.mpr hk
      simp [hpos, length_buildKeyMap _ hkN]
  · rw [hpRead]
    by_cases hp : vault.privateKeyStore = []
    · simp [hp]
    · have hpos : vault.privateKeyStore.length > 0 := List.length_pos.mpr hp
      simp [hpos, length_buildPrivateKeyMap _ hpA hpN]
  · rw [hvRead]
    by_cases hv : vault.vcStore = []
    · simp [hv]
    · have hpos : vault.vcStore.length > 0 := List.length_pos.mpr hv
      simp [hpos, length_buildVcMap _ hvA hvN]
  · intro hd
    rw [hdRead]
    simp [hd]
  · intro hv
    rw [hvRead]
    simp [hv]

/-- C5 witness: seeding `carol` (one DID, one key, one aliased private key,
one credential with an id) yields four flat files with one parsed entry
each. -/
theorem seed_writes_counted_maps_witness :
    (VaultSynchronizer.seedFilesFromVault stFull "carol").2 =
      Except.ok () ∧
    (lookupA (VaultSynchronizer.seedFilesFromVault stFull
        "carol").1.flatFiles "vaults/carol/didstore.json").map List.length =
      some 1 ∧
    (lookupA (VaultSynchronizer.seedFilesFromVault stFull
        "carol").1.flatFiles "vaults/carol/keystore.json").map List.length =
      some 1 ∧
    (lookupA (VaultSynchronizer.seedFilesFromVault stFull
        "carol").1.flatFiles
        "vaults/carol/private-keystore.json").map List.length = some 1 ∧
    (lookupA (VaultSynchronizer.seedFilesFromVault stFull
        "carol").1.flatFiles "vaults/carol/vcstore.json").map List.length =
      some 1 := by
  have h := seed_writes_counted_maps stFull "carol" vaultFull
    (by decide) (by decide) (by decide) (by decide) (by decide) (by decide)
    (by decide) (by decide)
  exact ⟨h.1, h.2.2.1, h.2.2.2.1, h.2.2.2.2.1, h.2.2.2.2.2.1⟩

end IdentityVeramo
